import Mathlib

/-!
Verification model of the weovim grid/highlight/decoder/triple-buffer core.

Rust code is embedded shallowly:
* machine integers (`usize`, `u64`) become `Nat`; `i64` becomes `Int`, and the
  `as usize` reinterpretation cast becomes a reduction modulo `2 ^ 64`;
* code that can abort (slice indexing out of bounds, explicit `panic`-style
  aborts, arithmetic underflow of `usize`) is modelled with `Option`
  (`none` = abort) or, in the decoder, with `Except DErr` where the error
  distinguishes a returned decode error from an abort;
* `String` text is modelled as `List Char`; the byte length used by the Rust
  code (`String::len`) is the sum of the UTF-8 sizes of the characters.
-/

namespace Weovim

/-- The space character, used by the grid for empty cells. -/
def spaceChar : Char := Char.ofNat 32

/-- UTF-8 byte length of a text, mirroring the Rust `String::len`. -/
def utf8Len (s : List Char) : Nat := (s.map Char.utf8Size).sum

/-- Mirrors `Vec::resize_with` in Rust: truncate to `n` elements or pad with `d`. -/
def listResizeWith {α : Type} (l : List α) (n : Nat) (d : α) : List α :=
  if n ≤ l.length then l.take n else l ++ List.replicate (n - l.length) d

/-! ## src/grid/lines.rs -/

/-- `NEOVIM_MAXCOMBINE` from src/grid/lines.rs. -/
def NEOVIM_MAXCOMBINE : Nat := 6

/-- `EMPTY_GRAPHEME` from src/grid/lines.rs: six spaces. -/
def EMPTY_GRAPHEME : List Char := List.replicate 6 spaceChar

/-- `GridCell` from src/neovim/events.rs (the decoded form of one cell tuple). -/
structure GridCell where
  text : String
  hl_id : Nat
  repeated : Nat
deriving DecidableEq, Repr

/-- `LineCell` from src/grid/lines.rs. -/
structure LineCell where
  chr : List Char
  size : Nat
  hl_id : Nat
deriving DecidableEq, Repr

/-- `LineCell::default`: empty grapheme (six spaces, size 0) and `u64::max_value()`. -/
def LineCell.default : LineCell :=
  { chr := EMPTY_GRAPHEME, size := 0, hl_id := 2 ^ 64 - 1 }

/-- `LineCell::update` from src/grid/lines.rs: overwrite the first characters of
`chr` with up to `NEOVIM_MAXCOMBINE` characters of the cell text and record how
many were written; characters beyond `size` are left as they were. -/
def LineCell.update (c : LineCell) (cell : GridCell) : LineCell :=
  let cs := cell.text.data.take NEOVIM_MAXCOMBINE
  { chr := cs ++ c.chr.drop cs.length, size := cs.length, hl_id := cell.hl_id }

/-- `LineCell::new` from src/grid/lines.rs: `default` then `update`. -/
def LineCell.new (cell : GridCell) : LineCell :=
  LineCell.default.update cell

/-- `LineCell::clear` from src/grid/lines.rs. -/
def LineCell.clear (_ : LineCell) : LineCell := LineCell.default

/-- `Section` from src/grid.rs. The exclusive upper bound is named `end` in the
source, which is a reserved word here, so it is called `stop`. -/
structure Section where
  hl : Nat
  start : Nat
  stop : Nat
deriving DecidableEq, Repr

/-- `SectionedLine<u64>` from src/grid.rs, with the text as a character list. -/
structure SectionedLine where
  text : List Char
  sections : List Section
deriving DecidableEq, Repr

/-- `SectionedLine::clear` from src/grid.rs. -/
def SectionedLine.clear (_ : SectionedLine) : SectionedLine :=
  { text := [], sections := [] }

/-- `LineCell::render_in` from src/grid/lines.rs: append the first `size`
characters of the grapheme to the text of the sectioned line. -/
def LineCell.render_in (c : LineCell) (sectioned : SectionedLine) : SectionedLine :=
  { sectioned with text := sectioned.text ++ c.chr.take c.size }

/-- The loop of `lines::render` (src/grid/lines.rs, lines 80-93): walk the cells
after the first one; when the highlight changes and text was produced since
`old_len`, push the finished section, then render the current cell. -/
def renderGo : List LineCell → Nat → Nat → SectionedLine → SectionedLine
  | [], _, _, sectioned => sectioned
  | cell :: cells, hl, old_len, sectioned =>
    if cell.hl_id ≠ hl ∧ utf8Len sectioned.text ≠ old_len then
      renderGo cells cell.hl_id (utf8Len sectioned.text)
        (cell.render_in
          { sectioned with
            sections := sectioned.sections ++
              [{ hl := hl, start := old_len, stop := utf8Len sectioned.text }] })
    else
      renderGo cells hl old_len (cell.render_in sectioned)

/-- `lines::render` from src/grid/lines.rs. -/
def linesRender (line : List LineCell) (sectioned : SectionedLine) : SectionedLine :=
  match line with
  | [] => sectioned
  | fc :: cells => renderGo cells fc.hl_id 0 (fc.render_in sectioned)

/-- The loop of `lines::update` (src/grid/lines.rs, lines 64-70): each decoded
cell overwrites `repeated` consecutive line cells. `split_at_mut` aborts when
`repeated` exceeds the remaining cells. -/
def updateCells : List LineCell → List GridCell → Option (List LineCell)
  | cells, [] => some cells
  | cells, gc :: rest =>
    if gc.repeated ≤ cells.length then
      (updateCells (cells.drop gc.repeated) rest).map
        (fun tail => List.replicate gc.repeated (LineCell.new gc) ++ tail)
    else none

/-- `GridLine` from src/neovim/events.rs (decoded `grid_line` event). -/
structure GridLine where
  grid : Nat
  row : Nat
  col_start : Nat
  cells : List GridCell
deriving DecidableEq, Repr

/-- `lines::update` from src/grid/lines.rs: slicing `line[col_start..]` aborts
when `col_start` exceeds the line length. -/
def linesUpdate (line : List LineCell) (new_line : GridLine) : Option (List LineCell) :=
  if new_line.col_start ≤ line.length then
    (updateCells (line.drop new_line.col_start) new_line.cells).map
      (fun tail => line.take new_line.col_start ++ tail)
  else none

/-! ## src/grid.rs -/

/-- `Lines` from src/grid.rs. The `FnvHashSet` of dirty rows is a finite set;
its iteration order is irrelevant below because every per-row action touches
only the state of its own row. -/
structure Lines where
  cells : List LineCell
  rows : Nat
  cols : Nat
  cached_sections : List SectionedLine
  dirty_lines : Finset Nat
deriving DecidableEq

/-- `Lines::default` (all fields empty, as derived in Rust). -/
def Lines.default : Lines :=
  { cells := [], rows := 0, cols := 0, cached_sections := [], dirty_lines := ∅ }

/-- `Lines::dirty_line` from src/grid.rs: insert into the dirty set and, when
newly inserted, clear the cached section (aborting when the index is out of
bounds of `cached_sections`). -/
def Lines.dirty_line (s : Lines) (i : Nat) : Option Lines :=
  if i ∈ s.dirty_lines then some s
  else if i < s.cached_sections.length then
    some { s with dirty_lines := insert i s.dirty_lines,
                  cached_sections := s.cached_sections.set i { text := [], sections := [] } }
  else none

/-- `Lines::dirty_all` from src/grid.rs: mark rows `0..rows` dirty and clear
their cached sections; indexing past `cached_sections` aborts. -/
def Lines.dirty_all (s : Lines) : Option Lines :=
  if s.rows ≤ s.cached_sections.length then
    some { s with
      dirty_lines := s.dirty_lines ∪ Finset.range s.rows,
      cached_sections := s.cached_sections.enum.map
        (fun p => if p.1 < s.rows then { text := [], sections := [] } else p.2) }
  else none

/-- `Lines::resize` from src/grid.rs: `dirty_all`, resize the cache, update the
dimensions, then resize the flat cell buffer. -/
def Lines.resize (s : Lines) (rows columns : Nat) : Option Lines :=
  s.dirty_all.map (fun s1 =>
    let s2 := { s1 with
      cached_sections := listResizeWith s1.cached_sections rows { text := [], sections := [] } }
    { s2 with rows := rows, cols := columns,
              cells := listResizeWith s2.cells (rows * columns) LineCell.default })

/-- `Lines::clear` from src/grid.rs. -/
def Lines.clear (s : Lines) : Option Lines :=
  s.dirty_all.map (fun s1 => { s1 with cells := s1.cells.map LineCell.clear })

/-- The slice `cells[row * cols..(row + 1) * cols]` produced by
`Lines::line_at_mut`; the Rust slice aborts when the end exceeds the buffer. -/
def Lines.line_at (s : Lines) (row : Nat) : Option (List LineCell) :=
  if row * s.cols + s.cols ≤ s.cells.length then
    some ((s.cells.drop (row * s.cols)).take s.cols)
  else none

/-- Write a full line back at `row` (the effect of mutation through
`Lines::line_at_mut`). -/
def Lines.set_line (s : Lines) (row : Nat) (line : List LineCell) : Lines :=
  { s with cells :=
      (s.cells.take (row * s.cols)) ++ line ++ s.cells.drop (row * s.cols + s.cols) }

/-- `Lines::update_line` from src/grid.rs. -/
def Lines.update_line (s : Lines) (grid_line : GridLine) : Option Lines := do
  let s1 ← s.dirty_line grid_line.row
  let line ← s1.line_at grid_line.row
  let line2 ← linesUpdate line grid_line
  pure (s1.set_line grid_line.row line2)

/-- `Lines::render` from src/grid.rs: re-render every dirty row into its cached
section and clear the dirty set. Indexing `cells[start..end]` or
`cached_sections[row]` with a dirty row out of bounds aborts. -/
def Lines.render (s : Lines) : Option Lines :=
  if ∀ r ∈ s.dirty_lines, r * s.cols + s.cols ≤ s.cells.length ∧ r < s.cached_sections.length then
    some { s with
      cached_sections := s.cached_sections.enum.map (fun p =>
        if p.1 ∈ s.dirty_lines then
          linesRender ((s.cells.drop (p.1 * s.cols)).take s.cols) p.2
        else p.2),
      dirty_lines := ∅ }
  else none

/-! ## `Stride` and `Lines::scroll` from src/grid.rs -/

/-- Elements produced by `Stride::Asc(start, stop)`: ascending while
`start < stop`. -/
def ascList (start stop : Nat) : List Nat :=
  if start < stop then start :: ascList (start + 1) stop else []
termination_by stop - start
decreasing_by omega

/-- Elements produced by `Stride::Desc(start, stop)`: descending while
`start > stop`. -/
def descList (start stop : Nat) : List Nat :=
  if stop < start then start :: descList (start - 1) stop else []
termination_by start - stop
decreasing_by omega

/-- Reinterpretation of an `i64` value as a `usize` (the Rust `as usize` cast,
two's complement, 64-bit targets). -/
def usizeOfI64 (x : Int) : Nat := (x % (2 ^ 64 : Int)).toNat

/-- One iteration of the loop in `Lines::scroll`: mark row `i` dirty, then swap
the column span `[left, left + line_range)` of row `i` with the same span of
row `(i as i64 + rows) as usize` (`std::ptr::swap_nonoverlapping`). Going past
either line (which the raw-pointer code would turn into out-of-bounds writes)
is modelled as an abort. -/
def Lines.scrollStep (rows : Int) (left line_range : Nat) (s : Lines) (i : Nat) :
    Option Lines := do
  let s1 ← s.dirty_line i
  let src_idx := usizeOfI64 ((i : Int) + rows)
  let dst ← s1.line_at i
  let src ← s1.line_at src_idx
  if left + line_range ≤ s1.cols then
    let dst2 := dst.take left ++ (src.drop left).take line_range ++ dst.drop (left + line_range)
    let src2 := src.take left ++ (dst.drop left).take line_range ++ src.drop (left + line_range)
    pure ((s1.set_line i dst2).set_line src_idx src2)
  else none

/-- `Lines::scroll` from src/grid.rs, lines 171-201. With `rows == 0` the
function returns immediately. Otherwise `0.cmp(&rows)` selects the stride:
`Ordering::Greater` (that is, `rows < 0`) gives
`Stride::Asc(reg[0], (reg[1] as i64 - rows + 1) as usize)` and
`Ordering::Less` (that is, `rows > 0`) gives
`Stride::Desc(reg[1], (reg[0] as i64 - rows - 1) as usize)`. The `usize`
subtraction `reg[3] - left` and the explicit
`panic!("Called scroll with region bigger that line!")` guard are modelled as
aborts. -/
def Lines.scroll (s : Lines) (reg0 reg1 reg2 reg3 : Nat) (rows : Int) : Option Lines :=
  if rows = 0 then some s
  else
    let range : List Nat :=
      if 0 > rows then ascList reg0 (usizeOfI64 ((reg1 : Int) - rows + 1))
      else descList reg1 (usizeOfI64 ((reg0 : Int) - rows - 1))
    let left := reg2
    if reg3 < left then none
    else
      let line_range := reg3 - left
      if s.cols < left then none
      else range.foldlM (Lines.scrollStep rows left line_range) s

/-! ## src/color.rs -/

/-- `Color` from src/color.rs, modelled by its four 8-bit channels. The source
stores each channel as an `f32` normalized by division with `255.0`; that
normalization is a fixed injective rescaling of the byte value and floating
point itself is not modelled. -/
structure Color where
  r : Nat
  g : Nat
  b : Nat
  a : Nat
deriving DecidableEq, Repr

/-- `Color::from_rgba` from src/color.rs (channel bytes kept as written). -/
def Color.from_rgba (r g b a : Nat) : Color :=
  { r := r, g := g, b := b, a := a }

/-- `Color::from_rgba_u64` from src/color.rs. The masks in the source are
32-bit wide, so the upper bytes of the `u64` are discarded. -/
def Color.from_rgba_u64 (color : Nat) : Color :=
  Color.from_rgba ((color &&& 0xFF000000) >>> 24) ((color &&& 0x00FF0000) >>> 16)
    ((color &&& 0x0000FF00) >>> 8) (color &&& 0x000000FF)

/-- `Color::from_rgb_u64` from src/color.rs: `from_rgba_u64(color << 8 | 0xFF)`
with the `u64` shift wrapping modulo `2 ^ 64`. -/
def Color.from_rgb_u64 (color : Nat) : Color :=
  Color.from_rgba_u64 ((color <<< 8 ||| 0xFF) % 2 ^ 64)

/-! ## `RgbAttr` and `HighlightAttr` from src/neovim/events.rs -/

/-- `RgbAttrFlags::REVERSE`. -/
def REVERSE : Nat := 1

/-- `RgbAttrFlags::ITALIC`. -/
def ITALIC : Nat := 2

/-- `RgbAttrFlags::BOLD`. -/
def BOLD : Nat := 4

/-- `RgbAttrFlags::STRIKETHROUGH`. -/
def STRIKETHROUGH : Nat := 8

/-- `RgbAttrFlags::UNDERLINE`. -/
def UNDERLINE : Nat := 16

/-- `RgbAttrFlags::UNDERCURL`. -/
def UNDERCURL : Nat := 32

/-- `RgbAttr` from src/neovim/events.rs; `flags` is the `bitflags` byte. -/
structure RgbAttr where
  foreground : Option Color
  background : Option Color
  special : Option Color
  blend : Nat
  flags : Nat
deriving DecidableEq, Repr

/-- `RgbAttr::default()` (all colors absent, zero blend, no flags). -/
def RgbAttr.default : RgbAttr :=
  { foreground := none, background := none, special := none, blend := 0, flags := 0 }

/-- `RgbAttr::reverse` from src/neovim/events.rs. -/
def RgbAttr.reverse (a : RgbAttr) : Bool := (a.flags &&& REVERSE) != 0

/-- Modelled from the spec: `reverse_rgb_attr` is called on `RgbAttr` in
src/editor.rs but its definition is not present anywhere under src/. Following
the spec (resolution with the reverse flag set "swaps foreground and background
after default-filling"), it swaps the foreground and background channels. -/
def RgbAttr.reverse_rgb_attr (a : RgbAttr) : RgbAttr :=
  { a with foreground := a.background, background := a.foreground }

/-- `HighlightAttr` from src/neovim/events.rs. -/
structure HighlightAttr where
  id : Nat
  rgb_attr : RgbAttr
deriving DecidableEq, Repr

/-! ## `HighlightGroups` from src/editor.rs -/

/-- `HighlightGroups` from src/editor.rs. -/
structure HighlightGroups where
  groups : List RgbAttr
  default : RgbAttr
deriving DecidableEq, Repr

/-- `HighlightGroups::default()`. -/
def HighlightGroups.init : HighlightGroups :=
  { groups := [], default := RgbAttr.default }

/-- `HighlightGroups::update_default` from src/editor.rs. -/
def HighlightGroups.update_default (g : HighlightGroups) (default : RgbAttr) :
    HighlightGroups :=
  { g with default := default }

/-- `HighlightGroups::update` from src/editor.rs, lines 269-279. For each
attribute: when `groups.len() <= id`, `resize_with(id, Default::default)` grows
the array to length `id` filling with `RgbAttr::default()`; the assignment
`groups[id] = ...` then aborts whenever `id` is not below the resulting length. -/
def HighlightGroups.update (g : HighlightGroups) (hl_attrs : List HighlightAttr) :
    Option HighlightGroups :=
  hl_attrs.foldlM
    (fun g hl =>
      let groups1 :=
        if g.groups.length ≤ hl.id then listResizeWith g.groups hl.id RgbAttr.default
        else g.groups
      if hl.id < groups1.length then some { g with groups := groups1.set hl.id hl.rgb_attr }
      else none)
    g

/-- `HighlightGroups::group_color_set` from src/editor.rs, lines 284-298. -/
def HighlightGroups.group_color_set (g : HighlightGroups) (hl_id : Nat) : RgbAttr :=
  match g.groups.get? hl_id with
  | some hl0 =>
    let hl := { hl0 with
      foreground := hl0.foreground.or g.default.foreground,
      background := hl0.background.or g.default.background,
      special := hl0.special.or g.default.special }
    if hl.reverse then hl.reverse_rgb_attr else hl
  | none => g.default

/-- `HighlightGroups::cursor_color_set` from src/editor.rs. -/
def HighlightGroups.cursor_color_set (g : HighlightGroups) (hl_id : Nat) : RgbAttr :=
  (g.group_color_set hl_id).reverse_rgb_attr

/-! ## The triple buffer, mod `buffering` in src/editor.rs

The shared descriptor byte `back_info` packs the back slot index in its low two
bits and the dirty flag in bit 2; `publish` and the reader `update` are single
atomic swaps of that byte, so any concurrent execution of the single writer and
the single reader is a sequence of these two atomic steps. -/

/-- `BACK_INDEX_MASK` from src/editor.rs. -/
def BACK_INDEX_MASK : Nat := 3

/-- `BACK_DIRTY_BIT` from src/editor.rs. -/
def BACK_DIRTY_BIT : Nat := 4

/-- The index state of the triple buffer: the writer input slot, the reader
output slot and the shared packed descriptor byte. -/
structure TBState where
  input_idx : Nat
  output_idx : Nat
  back_info : Nat
deriving DecidableEq, Repr

/-- The initial state built by `new_triple_buffer`: writer owns slot 1, reader
owns slot 2 and `back_info` is 0 (slot 0, dirty bit clear). -/
def initialTB : TBState :=
  { input_idx := 1, output_idx := 2, back_info := 0 }

/-- `TripleBufferWriter::publish` from src/editor.rs, lines 428-449: swap
`input_idx | BACK_DIRTY_BIT` into the descriptor, adopt the former back index
as the new input slot, and report whether the overwritten back buffer was still
dirty. -/
def TBState.publish (s : TBState) : Bool × TBState :=
  let former_back_info := s.back_info
  ((former_back_info &&& BACK_DIRTY_BIT) != 0,
   { s with back_info := s.input_idx ||| BACK_DIRTY_BIT,
            input_idx := former_back_info &&& BACK_INDEX_MASK })

/-- `TripleBufferReader::update` from src/editor.rs, lines 470-483: when the
dirty bit is set, swap the output index into the descriptor (the written byte
carries no dirty bit) and adopt the former back index as the new output slot. -/
def TBState.update (s : TBState) : TBState :=
  if (s.back_info &&& BACK_DIRTY_BIT) != 0 then
    { s with back_info := s.output_idx,
             output_idx := s.back_info &&& BACK_INDEX_MASK }
  else s

/-- One atomic step by either role. -/
inductive TBMove
  | publish
  | update
deriving DecidableEq, Repr

/-- Apply one atomic step. -/
def tbStep (s : TBState) (m : TBMove) : TBState :=
  match m with
  | TBMove.publish => s.publish.2
  | TBMove.update => s.update

/-- Run a finite interleaving of writer and reader steps from the initial
state. -/
def tbRun (ms : List TBMove) : TBState :=
  ms.foldl tbStep initialTB

/-- The slot-ownership invariant: the three indices are in `{0, 1, 2}`, the
descriptor byte stays below 8, and writer slot, reader slot and back slot are
pairwise distinct. -/
def tbInv (s : TBState) : Bool :=
  s.input_idx < 3 && s.output_idx < 3 && s.back_info < 8 &&
  s.back_info &&& BACK_INDEX_MASK < 3 &&
  s.input_idx != s.output_idx &&
  s.input_idx != s.back_info &&& BACK_INDEX_MASK &&
  s.output_idx != s.back_info &&& BACK_INDEX_MASK

/-! ## The decoder failure model

The decoder embedding distinguishes the two very different ways the Rust code
can fail on malformed input: returning an `io::Error` to the caller (the
`err_invalid_input` / `err_invalid_method` paths and the errors of the `rmp`
reading primitives) versus aborting the process (slice indexing out of bounds,
`unreachable!`, `usize` underflow). -/

/-- Failure modes of the decoding code. -/
inductive DErr
  | invalidInput
  | invalidMethod
  | panicked
deriving DecidableEq, Repr

/-! ## src/neovim/msg.rs, byte level

`msg::read_string` works on the raw byte slice: it first obtains the declared
string length through `rmp::decode::read_str_len` (an external crate, modelled
from the msgpack format: fixstr, str8, str16, str32) and then takes the slice
`&raw[..str_len]`, which aborts whenever the declared length exceeds the bytes
remaining in the buffer. -/

/-- Continuation byte test for UTF-8 (`0x80..=0xBF`). -/
def utf8Cont (b : Nat) : Bool := 0x80 ≤ b && b ≤ 0xBF

/-- Validity check of a byte sequence as UTF-8, modelling the external
`std::str::from_utf8` (RFC 3629: no overlongs, no surrogates, at most
`U+10FFFF`). -/
def utf8Valid : List Nat → Bool
  | [] => true
  | b :: rest =>
    if b ≤ 0x7F then utf8Valid rest
    else if 0xC2 ≤ b && b ≤ 0xDF then
      match rest with
      | c1 :: r => utf8Cont c1 && utf8Valid r
      | [] => false
    else if b == 0xE0 then
      match rest with
      | c1 :: c2 :: r => (0xA0 ≤ c1 && c1 ≤ 0xBF) && utf8Cont c2 && utf8Valid r
      | _ => false
    else if (0xE1 ≤ b && b ≤ 0xEC) || b == 0xEE || b == 0xEF then
      match rest with
      | c1 :: c2 :: r => utf8Cont c1 && utf8Cont c2 && utf8Valid r
      | _ => false
    else if b == 0xED then
      match rest with
      | c1 :: c2 :: r => (0x80 ≤ c1 && c1 ≤ 0x9F) && utf8Cont c2 && utf8Valid r
      | _ => false
    else if b == 0xF0 then
      match rest with
      | c1 :: c2 :: c3 :: r =>
        (0x90 ≤ c1 && c1 ≤ 0xBF) && utf8Cont c2 && utf8Cont c3 && utf8Valid r
      | _ => false
    else if 0xF1 ≤ b && b ≤ 0xF3 then
      match rest with
      | c1 :: c2 :: c3 :: r => utf8Cont c1 && utf8Cont c2 && utf8Cont c3 && utf8Valid r
      | _ => false
    else if b == 0xF4 then
      match rest with
      | c1 :: c2 :: c3 :: r =>
        (0x80 ≤ c1 && c1 ≤ 0x8F) && utf8Cont c2 && utf8Cont c3 && utf8Valid r
      | _ => false
    else false

/-- Big-endian accumulation of length bytes for the str8/str16/str32 markers. -/
def beBytes : Nat → Nat → List Nat → Option (Nat × List Nat)
  | 0, acc, raw => some (acc, raw)
  | n + 1, acc, raw =>
    match raw with
    | b :: rest => beBytes n (acc * 256 + b) rest
    | [] => none

/-- `rmp::decode::read_str_len` (external crate), modelled from the msgpack
format: a fixstr marker `0xA0..=0xBF` carries its length, `0xD9`, `0xDA` and
`0xDB` are followed by a 1, 2 or 4 byte big-endian length; any other marker and
any truncation while reading the length is a returned error, never an abort. -/
def read_str_len (raw : List Nat) : Except DErr (Nat × List Nat) :=
  match raw with
  | m :: rest =>
    if 0xA0 ≤ m ∧ m ≤ 0xBF then Except.ok (m - 0xA0, rest)
    else if m = 0xD9 then
      match beBytes 1 0 rest with
      | some p => Except.ok p
      | none => Except.error DErr.invalidInput
    else if m = 0xDA then
      match beBytes 2 0 rest with
      | some p => Except.ok p
      | none => Except.error DErr.invalidInput
    else if m = 0xDB then
      match beBytes 4 0 rest with
      | some p => Except.ok p
      | none => Except.error DErr.invalidInput
    else Except.error DErr.invalidInput
  | [] => Except.error DErr.invalidInput

/-- `msg::read_string` from src/neovim/msg.rs, lines 19-25, at byte level: read
the declared length, slice `&raw[..str_len]` (an abort when fewer bytes remain),
advance the buffer, and validate UTF-8 (an invalid encoding is a returned
`err_invalid_input`). The decoded text is returned as its raw bytes. -/
def msgReadStringBytes (raw : List Nat) : Except DErr (List Nat × List Nat) :=
  match read_str_len raw with
  | Except.error e => Except.error e
  | Except.ok (str_len, rest) =>
    if str_len ≤ rest.length then
      let raw_buf := rest.take str_len
      if utf8Valid raw_buf then Except.ok (raw_buf, rest.drop str_len)
      else Except.error DErr.invalidInput
    else Except.error DErr.panicked

/-! ## src/neovim/msg.rs, msgpack-value level

The remaining msg.rs helpers are thin wrappers over the `rmp` reading
primitives (an external crate); they are modelled at the granularity of whole
msgpack values, with the input as a list of typed tokens. -/

/-- One msgpack value as consumed by the msg.rs reading helpers. -/
inductive Tok
  | arr (n : Nat)
  | map (n : Nat)
  | str (s : String)
  | uint (n : Nat)
  | int (v : Int)
  | bool (b : Bool)
  | ext (ty : Int) (size : Nat)
deriving DecidableEq, Repr

/-- `msg::read_array_len`. -/
def read_array_len : List Tok → Except DErr (Nat × List Tok)
  | Tok.arr n :: rest => Except.ok (n, rest)
  | _ => Except.error DErr.invalidInput

/-- `msg::read_map_len`. -/
def read_map_len : List Tok → Except DErr (Nat × List Tok)
  | Tok.map n :: rest => Except.ok (n, rest)
  | _ => Except.error DErr.invalidInput

/-- `msg::read_string` at msgpack-value granularity. -/
def read_string : List Tok → Except DErr (String × List Tok)
  | Tok.str s :: rest => Except.ok (s, rest)
  | _ => Except.error DErr.invalidInput

/-- `msg::read_u64` (`rmp::decode::read_int::<u64>` rejects negatives). -/
def read_u64 : List Tok → Except DErr (Nat × List Tok)
  | Tok.uint n :: rest => Except.ok (n, rest)
  | Tok.int v :: rest =>
    if 0 ≤ v then Except.ok (v.toNat, rest) else Except.error DErr.invalidInput
  | _ => Except.error DErr.invalidInput

/-- `msg::read_i64`. -/
def read_i64 : List Tok → Except DErr (Int × List Tok)
  | Tok.uint n :: rest => Except.ok ((n : Int), rest)
  | Tok.int v :: rest => Except.ok (v, rest)
  | _ => Except.error DErr.invalidInput

/-- `msg::read_bool`. -/
def read_bool : List Tok → Except DErr (Bool × List Tok)
  | Tok.bool b :: rest => Except.ok (b, rest)
  | _ => Except.error DErr.invalidInput

/-- `msg::read_color`. -/
def read_color (raw : List Tok) : Except DErr (Color × List Tok) :=
  (read_u64 raw).map (fun p => (Color.from_rgb_u64 p.1, p.2))

/-- `msg::read_ext_meta`. -/
def read_ext_meta : List Tok → Except DErr ((Int × Nat) × List Tok)
  | Tok.ext ty size :: rest => Except.ok ((ty, size), rest)
  | _ => Except.error DErr.invalidInput

/-- `msg::ensure_parameters_count`. -/
def ensure_parameters_count (raw : List Tok) (count : Nat) : Except DErr (List Tok) := do
  let (n, raw) ← read_array_len raw
  if n = count then Except.ok raw else Except.error DErr.invalidInput

/-! ## Event types from src/neovim/events.rs -/

/-- `CursorShape`. -/
inductive CursorShape
  | Block
  | Horizontal
  | Vertical
deriving DecidableEq, Repr

/-- `ModeInfo`; `cell_percentage` is stored as `read_u64 / 100`, modelled as a
rational instead of an `f64`. -/
structure ModeInfo where
  cursor_shape : CursorShape
  cell_percentage : Rat
  attr_id : Nat
deriving DecidableEq, Repr

/-- `UiOption`. -/
inductive UiOption
  | String (option : String) (value : String)
  | Int (option : String) (value : Int)
  | Bool (option : String) (value : Bool)
deriving DecidableEq, Repr

/-- `DefaultColorSet`. -/
structure DefaultColorSet where
  foreground : Color
  background : Color
  special : Color
deriving DecidableEq, Repr

/-- `GridGoto`. -/
structure GridGoto where
  grid : Nat
  row : Nat
  column : Nat
deriving DecidableEq, Repr

/-- `GridScroll`. -/
structure GridScroll where
  grid : Nat
  top : Nat
  bottom : Nat
  left : Nat
  right : Nat
  rows : Int
deriving DecidableEq, Repr

/-- `WinNr`. -/
structure WinNr where
  val : Nat
deriving DecidableEq, Repr

/-- `WinPos`. -/
structure WinPos where
  grid : Nat
  win : WinNr
  start_row : Nat
  start_col : Nat
  width : Nat
  height : Nat
deriving DecidableEq, Repr

/-- `WinFloatAnchor`. -/
inductive WinFloatAnchor
  | Northwest
  | Northeast
  | Southwest
  | Southeast
deriving DecidableEq, Repr

/-- `WinFloatPos`. -/
structure WinFloatPos where
  grid : Nat
  win : WinNr
  anchor : WinFloatAnchor
  anchor_grid : Nat
  anchor_row : Nat
  anchor_col : Nat
  focusable : Bool
deriving DecidableEq, Repr

/-- `MsgSetPos`. -/
structure MsgSetPos where
  grid : Nat
  row : Nat
  scrolled : Bool
  sep_char : String
deriving DecidableEq, Repr

/-- `WinViewPort`. -/
structure WinViewPort where
  grid : Nat
  win : WinNr
  topline : Nat
  botline : Nat
  curline : Nat
  curcol : Nat
deriving DecidableEq, Repr

/-- `RedrawEvent` from src/neovim/events.rs. -/
inductive RedrawEvent
  | SetTitle (s : String)
  | SetIcon (s : String)
  | ModeInfoSet (cursor_style_enabled : Bool) (mode_infos : List ModeInfo)
  | OptionSet (o : UiOption)
  | ModeChange (n : Nat)
  | Mouse (b : Bool)
  | Busy (b : Bool)
  | Flush
  | GridResize (grid width height : Nat)
  | DefaultColorsSet (d : DefaultColorSet)
  | HlAttrDefine (h : HighlightAttr)
  | HlGroupSet (name : String) (hl_id : Nat)
  | GridLine (l : GridLine)
  | GridClear (g : Nat)
  | GridDestroy (g : Nat)
  | GridCursorGoto (g : GridGoto)
  | GridScroll (s : GridScroll)
  | WinPos (w : WinPos)
  | WinFloatPos (w : WinFloatPos)
  | WinExternalPos (grid : Nat) (win : WinNr)
  | WinHide (w : WinNr)
  | WinClose (w : WinNr)
  | MsgSetPos (m : MsgSetPos)
  | WinViewPort (w : WinViewPort)
deriving DecidableEq, Repr

/-- `WinNr::decode`. -/
def WinNr.decode (raw : List Tok) : Except DErr (WinNr × List Tok) := do
  let (_, raw) ← read_ext_meta raw
  let (v, raw) ← read_u64 raw
  Except.ok (WinNr.mk v, raw)

/-! ## The per-event decoders from src/neovim/events.rs -/

/-- `RedrawEvent::decode_set_title`. -/
def decode_set_title (raw : List Tok) : Except DErr (RedrawEvent × List Tok) := do
  let raw ← ensure_parameters_count raw 1
  let (s, raw) ← read_string raw
  Except.ok (RedrawEvent.SetTitle s, raw)

/-- `RedrawEvent::decode_set_icon`. -/
def decode_set_icon (raw : List Tok) : Except DErr (RedrawEvent × List Tok) := do
  let raw ← ensure_parameters_count raw 1
  let (s, raw) ← read_string raw
  Except.ok (RedrawEvent.SetIcon s, raw)

/-- The inner key/value loop of `decode_mode_info_set`, iterated `read_map_len`
times; an unknown key is a returned decode error. -/
def consumeModeInfoEntries : Nat → ModeInfo → List Tok → Except DErr (ModeInfo × List Tok)
  | 0, info, raw => Except.ok (info, raw)
  | n + 1, info, raw => do
    let (key, raw) ← read_string raw
    match key with
    | "cursor_shape" => do
      let (s, raw) ← read_string raw
      match s with
      | "block" => consumeModeInfoEntries n { info with cursor_shape := CursorShape.Block } raw
      | "horizontal" =>
        consumeModeInfoEntries n { info with cursor_shape := CursorShape.Horizontal } raw
      | "vertical" =>
        consumeModeInfoEntries n { info with cursor_shape := CursorShape.Vertical } raw
      | _ => Except.error DErr.invalidInput
    | "cell_percentage" => do
      let (v, raw) ← read_u64 raw
      consumeModeInfoEntries n { info with cell_percentage := (v : Rat) / 100 } raw
    | "attr_id" | "hl_id" => do
      let (v, raw) ← read_u64 raw
      consumeModeInfoEntries n { info with attr_id := v } raw
    | "blinkoff" | "blinkon" | "blinkwait" | "attr_id_lm" | "id_lm" | "mouse_shape" => do
      let (_, raw) ← read_u64 raw
      consumeModeInfoEntries n info raw
    | "short_name" | "name" => do
      let (_, raw) ← read_string raw
      consumeModeInfoEntries n info raw
    | _ => Except.error DErr.invalidInput

/-- The outer loop of `decode_mode_info_set`, iterated `read_array_len` times. -/
def consumeModeInfos : Nat → List ModeInfo → List Tok → Except DErr (List ModeInfo × List Tok)
  | 0, acc, raw => Except.ok (acc, raw)
  | n + 1, acc, raw => do
    let (m, raw) ← read_map_len raw
    let (info, raw) ← consumeModeInfoEntries m
      { cursor_shape := CursorShape.Block, cell_percentage := 0, attr_id := 0 } raw
    consumeModeInfos n (acc ++ [info]) raw

/-- `RedrawEvent::decode_mode_info_set`. -/
def decode_mode_info_set (raw : List Tok) : Except DErr (RedrawEvent × List Tok) := do
  let raw ← ensure_parameters_count raw 2
  let (cursor_style_enabled, raw) ← read_bool raw
  let (n_infos, raw) ← read_array_len raw
  let (mode_infos, raw) ← consumeModeInfos n_infos [] raw
  Except.ok (RedrawEvent.ModeInfoSet cursor_style_enabled mode_infos, raw)

/-- `RedrawEvent::decode_option_set`; an unknown option name is a returned
decode error. -/
def decode_option_set (raw : List Tok) : Except DErr (RedrawEvent × List Tok) := do
  let raw ← ensure_parameters_count raw 2
  let (option, raw) ← read_string raw
  match option with
  | "ambiwidth" | "guifontwide" | "guifont" | "guifontset" => do
    let (value, raw) ← read_string raw
    Except.ok (RedrawEvent.OptionSet (UiOption.String option value), raw)
  | "pumblend" | "showtabline" | "ttimeoutlen" | "linespace" => do
    let (value, raw) ← read_i64 raw
    Except.ok (RedrawEvent.OptionSet (UiOption.Int option value), raw)
  | "arabicshape" | "termguicolors" | "emoji" | "mousefocus" | "ttimeout"
  | "ext_linegrid" | "ext_multigrid" | "ext_hlstate" | "ext_termcolors"
  | "ext_cmdline" | "ext_popupmenu" | "ext_tabline" | "ext_wildmenu" | "ext_messages" => do
    let (value, raw) ← read_bool raw
    Except.ok (RedrawEvent.OptionSet (UiOption.Bool option value), raw)
  | _ => Except.error DErr.invalidInput

/-- `RedrawEvent::decode_mode_change`. -/
def decode_mode_change (raw : List Tok) : Except DErr (RedrawEvent × List Tok) := do
  let raw ← ensure_parameters_count raw 2
  let (_, raw) ← read_string raw
  let (v, raw) ← read_u64 raw
  Except.ok (RedrawEvent.ModeChange v, raw)

/-- `RedrawEvent::decode_grid_resize`. -/
def decode_grid_resize (raw : List Tok) : Except DErr (RedrawEvent × List Tok) := do
  let raw ← ensure_parameters_count raw 3
  let (grid, raw) ← read_u64 raw
  let (width, raw) ← read_u64 raw
  let (height, raw) ← read_u64 raw
  Except.ok (RedrawEvent.GridResize grid width height, raw)

/-- `RedrawEvent::decode_default_colors_set`. -/
def decode_default_colors_set (raw : List Tok) : Except DErr (RedrawEvent × List Tok) := do
  let raw ← ensure_parameters_count raw 5
  let (foreground, raw) ← read_color raw
  let (background, raw) ← read_color raw
  let (special, raw) ← read_color raw
  let (_, raw) ← read_u64 raw
  let (_, raw) ← read_u64 raw
  Except.ok (RedrawEvent.DefaultColorsSet
    { foreground := foreground, background := background, special := special }, raw)

/-- The key/value loop of `consume_attr` inside `decode_hl_attr_define`; note
that a flag key inserts its flag after reading the boolean regardless of the
value read, exactly as the source does. -/
def consumeAttrEntries : Nat → RgbAttr → List Tok → Except DErr (RgbAttr × List Tok)
  | 0, attr, raw => Except.ok (attr, raw)
  | n + 1, attr, raw => do
    let (key, raw) ← read_string raw
    match key with
    | "foreground" => do
      let (c, raw) ← read_color raw
      consumeAttrEntries n { attr with foreground := some c } raw
    | "background" => do
      let (c, raw) ← read_color raw
      consumeAttrEntries n { attr with background := some c } raw
    | "special" => do
      let (c, raw) ← read_color raw
      consumeAttrEntries n { attr with special := some c } raw
    | "blend" => do
      let (v, raw) ← read_u64 raw
      consumeAttrEntries n { attr with blend := v % 256 } raw
    | "reverse" => do
      let (_, raw) ← read_bool raw
      consumeAttrEntries n { attr with flags := attr.flags ||| REVERSE } raw
    | "italic" => do
      let (_, raw) ← read_bool raw
      consumeAttrEntries n { attr with flags := attr.flags ||| ITALIC } raw
    | "bold" => do
      let (_, raw) ← read_bool raw
      consumeAttrEntries n { attr with flags := attr.flags ||| BOLD } raw
    | "strikethrough" => do
      let (_, raw) ← read_bool raw
      consumeAttrEntries n { attr with flags := attr.flags ||| STRIKETHROUGH } raw
    | "underline" => do
      let (_, raw) ← read_bool raw
      consumeAttrEntries n { attr with flags := attr.flags ||| UNDERLINE } raw
    | "undercurl" => do
      let (_, raw) ← read_bool raw
      consumeAttrEntries n { attr with flags := attr.flags ||| UNDERCURL } raw
    | _ => Except.error DErr.invalidInput

/-- `consume_attr` inside `decode_hl_attr_define`. -/
def consume_attr (raw : List Tok) : Except DErr (RgbAttr × List Tok) := do
  let (m, raw) ← read_map_len raw
  consumeAttrEntries m RgbAttr.default raw

/-- `RedrawEvent::decode_hl_attr_define`. -/
def decode_hl_attr_define (raw : List Tok) : Except DErr (RedrawEvent × List Tok) := do
  let raw ← ensure_parameters_count raw 4
  let (id, raw) ← read_u64 raw
  let (rgb_attr, raw) ← consume_attr raw
  let (_, raw) ← consume_attr raw
  let raw ← ensure_parameters_count raw 0
  Except.ok (RedrawEvent.HlAttrDefine { id := id, rgb_attr := rgb_attr }, raw)

/-- `RedrawEvent::decode_hl_group_set`. -/
def decode_hl_group_set (raw : List Tok) : Except DErr (RedrawEvent × List Tok) := do
  let raw ← ensure_parameters_count raw 2
  let (name, raw) ← read_string raw
  let (hl_id, raw) ← read_u64 raw
  Except.ok (RedrawEvent.HlGroupSet name hl_id, raw)

/-- The cell loop of `decode_grid_line` (src/neovim/events.rs, lines 850-870):
each cell tuple declares its own arity; the highlight id is read only when the
arity exceeds 1 (otherwise the last explicitly seen id of this line is reused,
initially 0) and the repeat count only when the arity exceeds 2 (otherwise 1). -/
def decodeGridLineCells : Nat → Nat → List GridCell → List Tok →
    Except DErr (List GridCell × List Tok)
  | 0, _, acc, raw => Except.ok (acc, raw)
  | n + 1, last_hl_id, acc, raw => do
    let (cell_tuple_len, raw) ← read_array_len raw
    let (text, raw) ← read_string raw
    let (hl_id, last2, raw) ←
      if cell_tuple_len > 1 then do
        let (h, raw) ← read_u64 raw
        Except.ok (h, h, raw)
      else Except.ok (last_hl_id, last_hl_id, raw)
    let (repeated, raw) ←
      if cell_tuple_len > 2 then read_u64 raw
      else Except.ok (1, raw)
    decodeGridLineCells n last2
      (acc ++ [{ text := text, hl_id := hl_id, repeated := repeated }]) raw

/-- `RedrawEvent::decode_grid_line` from src/neovim/events.rs, lines 836-873. -/
def decode_grid_line (raw : List Tok) : Except DErr (RedrawEvent × List Tok) := do
  let raw ← ensure_parameters_count raw 4
  let (grid, raw) ← read_u64 raw
  let (row, raw) ← read_u64 raw
  let (col_start, raw) ← read_u64 raw
  let (cells_len, raw) ← read_array_len raw
  let (cells, raw) ← decodeGridLineCells cells_len 0 [] raw
  Except.ok (RedrawEvent.GridLine
    { grid := grid, row := row, col_start := col_start, cells := cells }, raw)

/-- `RedrawEvent::decode_grid_clear`. -/
def decode_grid_clear (raw : List Tok) : Except DErr (RedrawEvent × List Tok) := do
  let raw ← ensure_parameters_count raw 1
  let (g, raw) ← read_u64 raw
  Except.ok (RedrawEvent.GridClear g, raw)

/-- `RedrawEvent::decode_grid_destroy`. -/
def decode_grid_destroy (raw : List Tok) : Except DErr (RedrawEvent × List Tok) := do
  let raw ← ensure_parameters_count raw 1
  let (g, raw) ← read_u64 raw
  Except.ok (RedrawEvent.GridDestroy g, raw)

/-- `RedrawEvent::decode_grid_cursor_goto`. -/
def decode_grid_cursor_goto (raw : List Tok) : Except DErr (RedrawEvent × List Tok) := do
  let raw ← ensure_parameters_count raw 3
  let (grid, raw) ← read_u64 raw
  let (row, raw) ← read_u64 raw
  let (column, raw) ← read_u64 raw
  Except.ok (RedrawEvent.GridCursorGoto { grid := grid, row := row, column := column }, raw)

/-- `RedrawEvent::decode_grid_scroll`. -/
def decode_grid_scroll (raw : List Tok) : Except DErr (RedrawEvent × List Tok) := do
  let raw ← ensure_parameters_count raw 7
  let (grid, raw) ← read_u64 raw
  let (top, raw) ← read_u64 raw
  let (bottom, raw) ← read_u64 raw
  let (left, raw) ← read_u64 raw
  let (right, raw) ← read_u64 raw
  let (rows, raw) ← read_i64 raw
  let (_, raw) ← read_u64 raw
  Except.ok (RedrawEvent.GridScroll
    { grid := grid, top := top, bottom := bottom, left := left, right := right, rows := rows },
    raw)

/-- `RedrawEvent::decode_win_pos`. -/
def decode_win_pos (raw : List Tok) : Except DErr (RedrawEvent × List Tok) := do
  let raw ← ensure_parameters_count raw 6
  let (grid, raw) ← read_u64 raw
  let (win, raw) ← WinNr.decode raw
  let (start_row, raw) ← read_u64 raw
  let (start_col, raw) ← read_u64 raw
  let (width, raw) ← read_u64 raw
  let (height, raw) ← read_u64 raw
  Except.ok (RedrawEvent.WinPos
    { grid := grid, win := win, start_row := start_row, start_col := start_col,
      width := width, height := height }, raw)

/-- `RedrawEvent::decode_win_float_pos` from src/neovim/events.rs, lines
930-951: the anchor string is matched against the four known anchors and any
other value hits `unreachable!("received unknown anchor")`, an abort. -/
def decode_win_float_pos (raw : List Tok) : Except DErr (RedrawEvent × List Tok) := do
  let raw ← ensure_parameters_count raw 7
  let (grid, raw) ← read_u64 raw
  let (win, raw) ← WinNr.decode raw
  let (anchorStr, raw) ← read_string raw
  let anchor ←
    match anchorStr with
    | "NW" => Except.ok WinFloatAnchor.Northwest
    | "NE" => Except.ok WinFloatAnchor.Northeast
    | "SW" => Except.ok WinFloatAnchor.Southwest
    | "SE" => Except.ok WinFloatAnchor.Southeast
    | _ => Except.error DErr.panicked
  let (anchor_grid, raw) ← read_u64 raw
  let (anchor_row, raw) ← read_u64 raw
  let (anchor_col, raw) ← read_u64 raw
  let (focusable, raw) ← read_bool raw
  Except.ok (RedrawEvent.WinFloatPos
    { grid := grid, win := win, anchor := anchor, anchor_grid := anchor_grid,
      anchor_row := anchor_row, anchor_col := anchor_col, focusable := focusable }, raw)

/-- `RedrawEvent::decode_win_external_pos`. -/
def decode_win_external_pos (raw : List Tok) : Except DErr (RedrawEvent × List Tok) := do
  let raw ← ensure_parameters_count raw 2
  let (grid, raw) ← read_u64 raw
  let (win, raw) ← WinNr.decode raw
  Except.ok (RedrawEvent.WinExternalPos grid win, raw)

/-- `RedrawEvent::decode_win_hide`. -/
def decode_win_hide (raw : List Tok) : Except DErr (RedrawEvent × List Tok) := do
  let raw ← ensure_parameters_count raw 1
  let (win, raw) ← WinNr.decode raw
  Except.ok (RedrawEvent.WinHide win, raw)

/-- `RedrawEvent::decode_win_close`. -/
def decode_win_close (raw : List Tok) : Except DErr (RedrawEvent × List Tok) := do
  let raw ← ensure_parameters_count raw 1
  let (win, raw) ← WinNr.decode raw
  Except.ok (RedrawEvent.WinClose win, raw)

/-- `RedrawEvent::decode_msg_set_pos`. -/
def decode_msg_set_pos (raw : List Tok) : Except DErr (RedrawEvent × List Tok) := do
  let raw ← ensure_parameters_count raw 4
  let (grid, raw) ← read_u64 raw
  let (row, raw) ← read_u64 raw
  let (scrolled, raw) ← read_bool raw
  let (sep_char, raw) ← read_string raw
  Except.ok (RedrawEvent.MsgSetPos
    { grid := grid, row := row, scrolled := scrolled, sep_char := sep_char }, raw)

/-- `RedrawEvent::decode_win_viewport`. -/
def decode_win_viewport (raw : List Tok) : Except DErr (RedrawEvent × List Tok) := do
  let raw ← ensure_parameters_count raw 6
  let (grid, raw) ← read_u64 raw
  let (win, raw) ← WinNr.decode raw
  let (topline, raw) ← read_u64 raw
  let (botline, raw) ← read_u64 raw
  let (curline, raw) ← read_u64 raw
  let (curcol, raw) ← read_u64 raw
  Except.ok (RedrawEvent.WinViewPort
    { grid := grid, win := win, topline := topline, botline := botline,
      curline := curline, curcol := curcol }, raw)

/-- Repeated decoding of one event kind, `n_events` times (the `for` loops in
`decode_single`). -/
def repeatDecode (n : Nat) (f : List Tok → Except DErr (RedrawEvent × List Tok))
    (raw : List Tok) : Except DErr (List RedrawEvent × List Tok) :=
  match n with
  | 0 => Except.ok ([], raw)
  | n + 1 => do
    let (e, raw) ← f raw
    let (es, raw) ← repeatDecode n f raw
    Except.ok (e :: es, raw)

/-- `RedrawEvent::decode_single` from src/neovim/events.rs, lines 492-637: read
the batch arity, read the event-name string and dispatch on it. The returned
list is what the call pushes onto `events`. With `event_len == 0` the `usize`
expression `event_len - 1` underflows, an abort. An event name matching no arm
logs a warning and returns `err_invalid_input()` — a fatal error for this read,
not a skip. -/
def decode_single (raw : List Tok) : Except DErr (List RedrawEvent × List Tok) := do
  let (event_len, raw) ← read_array_len raw
  if event_len = 0 then Except.error DErr.panicked
  else
    let n_events := event_len - 1
    let (event_type, raw) ← read_string raw
    match event_type with
    | "set_title" => (decode_set_title raw).map (fun p => ([p.1], p.2))
    | "set_icon" => (decode_set_icon raw).map (fun p => ([p.1], p.2))
    | "mode_info_set" => repeatDecode n_events decode_mode_info_set raw
    | "option_set" => repeatDecode n_events decode_option_set raw
    | "mode_change" => repeatDecode n_events decode_mode_change raw
    | "mouse_on" => do
      -- The source passes only the count here (a slip); modelled as the
      -- adjacent arms, consuming the empty parameter array.
      let raw ← ensure_parameters_count raw 0
      Except.ok ([RedrawEvent.Mouse true], raw)
    | "mouse_off" => do
      let raw ← ensure_parameters_count raw 0
      Except.ok ([RedrawEvent.Mouse false], raw)
    | "busy_start" => do
      let raw ← ensure_parameters_count raw 0
      Except.ok ([RedrawEvent.Busy true], raw)
    | "busy_stop" => do
      let raw ← ensure_parameters_count raw 0
      Except.ok ([RedrawEvent.Busy false], raw)
    | "flush" => do
      let raw ← ensure_parameters_count raw 0
      Except.ok ([RedrawEvent.Flush], raw)
    | "suspend" | "update_menu" | "bell" | "visual_bell" => do
      let raw ← ensure_parameters_count raw 0
      Except.ok ([], raw)
    | "grid_resize" => repeatDecode n_events decode_grid_resize raw
    | "default_colors_set" => repeatDecode n_events decode_default_colors_set raw
    | "hl_attr_define" => repeatDecode n_events decode_hl_attr_define raw
    | "hl_group_set" => repeatDecode n_events decode_hl_group_set raw
    | "grid_line" => repeatDecode n_events decode_grid_line raw
    | "grid_clear" => repeatDecode n_events decode_grid_clear raw
    | "grid_destroy" => repeatDecode n_events decode_grid_destroy raw
    | "grid_cursor_goto" => (decode_grid_cursor_goto raw).map (fun p => ([p.1], p.2))
    | "grid_scroll" => repeatDecode n_events decode_grid_scroll raw
    | "win_pos" => repeatDecode n_events decode_win_pos raw
    | "win_float_pos" => repeatDecode n_events decode_win_float_pos raw
    | "win_external_pos" => repeatDecode n_events decode_win_external_pos raw
    | "win_hide" => repeatDecode n_events decode_win_hide raw
    | "win_close" => repeatDecode n_events decode_win_close raw
    | "msg_set_pos" => repeatDecode n_events decode_msg_set_pos raw
    | "win_viewport" => repeatDecode n_events decode_win_viewport raw
    | _ => Except.error DErr.invalidInput

/-- The event-name strings with a dispatch arm in `decode_single`. -/
def recognizedEventNames : List String :=
  ["set_title", "set_icon", "mode_info_set", "option_set", "mode_change",
   "mouse_on", "mouse_off", "busy_start", "busy_stop", "flush",
   "suspend", "update_menu", "bell", "visual_bell",
   "grid_resize", "default_colors_set", "hl_attr_define", "hl_group_set",
   "grid_line", "grid_clear", "grid_destroy", "grid_cursor_goto", "grid_scroll",
   "win_pos", "win_float_pos", "win_external_pos", "win_hide", "win_close",
   "msg_set_pos", "win_viewport"]

/-- The loop of `RedrawEvent::decode`: `n_events` calls of `decode_single`, in
order, each appending its events. -/
def decodeLoop : Nat → List RedrawEvent → List Tok → Except DErr (List RedrawEvent × List Tok)
  | 0, acc, raw => Except.ok (acc, raw)
  | n + 1, acc, raw => do
    let (es, raw) ← decode_single raw
    decodeLoop n (acc ++ es) raw

/-- `RedrawEvent::decode` from src/neovim/events.rs, lines 480-490. -/
def decode (raw : List Tok) : Except DErr (List RedrawEvent × List Tok) := do
  let (n_events, raw) ← read_array_len raw
  decodeLoop n_events [] raw

/-- One iteration of the message loop body of `EventReceiver::start_loop`
(src/neovim/rpc.rs, lines 184-217): read the frame arity and the message-kind
integer; a request or a response drops the rest of the read; a notification
reads the method string, decodes a `redraw` payload (a decode error is logged
and drops the rest of the read, it does not end the loop) and drops the read on
any other method; any other kind hits `unreachable!("received invalid RPC
type")`, an abort. -/
def handle_message (recv : List Tok) : Except DErr (List RedrawEvent × List Tok) := do
  let (_, recv) ← read_array_len recv
  let (kind, recv) ← read_u64 recv
  match kind with
  | 0 => Except.ok ([], [])
  | 1 => Except.ok ([], [])
  | 2 => do
    let (method, recv) ← read_string recv
    match method with
    | "redraw" =>
      match decode recv with
      | Except.ok (events, recv) => Except.ok (events, recv)
      | Except.error DErr.panicked => Except.error DErr.panicked
      | Except.error _ => Except.ok ([], [])
    | _ => Except.ok ([], [])
  | _ => Except.error DErr.panicked

/-! ## Specification-side predicates and fixtures for the claims -/

/-- Sections chain check: starting at offset `k` with `ph` the highlight of the
previous section (if any), every section begins exactly where the previous one
ended, is non-empty, and differs in highlight from its predecessor. -/
def sectionsChainB : Nat → Option Nat → List Section → Bool
  | _, _, [] => true
  | k, ph, sec :: rest =>
    sec.start == k && decide (k < sec.stop) &&
    (match ph with
     | none => true
     | some h => sec.hl != h) &&
    sectionsChainB sec.stop (some sec.hl) rest

/-- The end offset of the last section, `k` when there is none. -/
def sectionsEnd : Nat → List Section → Nat
  | k, [] => k
  | _, sec :: rest => sectionsEnd sec.stop rest

/-- The highlight of the last section, `ph` when there is none. -/
def lastHlD : Option Nat → List Section → Option Nat
  | ph, [] => ph
  | _, sec :: rest => lastHlD (some sec.hl) rest

/-- Follows the claim wording of C2: the sections are contiguous and
non-overlapping from offset 0, adjacent sections differ in highlight id, and
together they cover exactly the byte range of the text. -/
def coversExactly (sl : SectionedLine) : Prop :=
  sectionsChainB 0 none sl.sections = true ∧ sectionsEnd 0 sl.sections = utf8Len sl.text

/-- Wire form of one grid_line cell tuple: arity 1 (text only), arity 2 (text
and highlight id) or arity 3 (text, highlight id and repeat count). -/
inductive CellWire
  | t1 (text : String)
  | t2 (text : String) (hl : Nat)
  | t3 (text : String) (hl : Nat) (rep : Nat)
deriving DecidableEq, Repr

/-- The msgpack tokens of one cell tuple. -/
def CellWire.toks : CellWire → List Tok
  | CellWire.t1 t => [Tok.arr 1, Tok.str t]
  | CellWire.t2 t h => [Tok.arr 2, Tok.str t, Tok.uint h]
  | CellWire.t3 t h r => [Tok.arr 3, Tok.str t, Tok.uint h, Tok.uint r]

/-- The msgpack tokens of a list of cell tuples. -/
def encodeCells (ws : List CellWire) : List Tok := (ws.map CellWire.toks).flatten

/-- Follows the claim wording of C8 (the reference reading of grid_line cell
tuples): a tuple omitting its highlight id receives the most recently seen
explicit id of the same line (initially 0), a tuple omitting its repeat count
receives 1. -/
def gridLineCellsSpec (last : Nat) : List CellWire → List GridCell
  | [] => []
  | CellWire.t1 t :: ws =>
    { text := t, hl_id := last, repeated := 1 } :: gridLineCellsSpec last ws
  | CellWire.t2 t h :: ws =>
    { text := t, hl_id := h, repeated := 1 } :: gridLineCellsSpec h ws
  | CellWire.t3 t h r :: ws =>
    { text := t, hl_id := h, repeated := r } :: gridLineCellsSpec h ws

/-- A default-grapheme cell carrying highlight id `h` (used to tell grid rows
apart). -/
def c1cell (h : Nat) : LineCell := { chr := EMPTY_GRAPHEME, size := 0, hl_id := h }

/-- A 6-row, 10-column grid whose row `r` consists of cells with highlight id
`r`. -/
def c1grid : Lines :=
  { cells := ((List.range 6).map (fun r => List.replicate 10 (c1cell r))).flatten,
    rows := 6, cols := 10,
    cached_sections := List.replicate 6 { text := [], sections := [] },
    dirty_lines := ∅ }

/-- A grid_line update writing "a" then "b", both with highlight id 1. -/
def c2line : GridLine :=
  { grid := 1, row := 0, col_start := 0,
    cells := [{ text := "a", hl_id := 1, repeated := 1 },
              { text := "b", hl_id := 1, repeated := 1 }] }

/-- The grid reached by `resize 1 2`, the `c2line` update and `render`. -/
def c2final : Lines :=
  { cells := [LineCell.new { text := "a", hl_id := 1, repeated := 1 },
              LineCell.new { text := "b", hl_id := 1, repeated := 1 }],
    rows := 1, cols := 2,
    cached_sections := [{ text := [Char.ofNat 97, Char.ofNat 98], sections := [] }],
    dirty_lines := ∅ }

/-- An attribute with only the background channel set. -/
def bgOnlyAttr : RgbAttr :=
  { foreground := none, background := some { r := 1, g := 2, b := 3, a := 255 },
    special := none, blend := 0, flags := 0 }

/-- A highlight table whose entry 5 is `bgOnlyAttr` (entries 0-4 defaulted). -/
def c7groups : List RgbAttr := List.replicate 5 RgbAttr.default ++ [bgOnlyAttr]

/-- A default attribute with every channel present. -/
def c7dA : RgbAttr :=
  { foreground := some { r := 10, g := 10, b := 10, a := 255 },
    background := some { r := 20, g := 20, b := 20, a := 255 },
    special := some { r := 30, g := 30, b := 30, a := 255 }, blend := 0, flags := 0 }

/-- A second default attribute, different from `c7dA` in every channel. -/
def c7dB : RgbAttr :=
  { foreground := some { r := 40, g := 40, b := 40, a := 255 },
    background := some { r := 50, g := 50, b := 50, a := 255 },
    special := some { r := 60, g := 60, b := 60, a := 255 }, blend := 0, flags := 0 }

/-- Tokens of a `win_float_pos` event payload whose anchor string is "XX". -/
def c4floatPosToks : List Tok :=
  [Tok.arr 7, Tok.uint 1, Tok.ext 1 0, Tok.uint 42, Tok.str "XX"]

/-- Tokens of a redraw read with two batches: an unknown event name followed by
a well-formed flush batch. -/
def c5toks : List Tok :=
  [Tok.arr 2, Tok.arr 1, Tok.str "an_unknown_event", Tok.arr 1, Tok.str "flush", Tok.arr 0]

/-- The grid reached from the empty grid by `resize 5 2` then `resize 3 2`:
three rows, but rows 0-4 are still marked dirty. -/
def c10g2 : Lines :=
  { cells := List.replicate 6 LineCell.default, rows := 3, cols := 2,
    cached_sections := List.replicate 3 { text := [], sections := [] },
    dirty_lines := Finset.range 5 }

deriving instance DecidableEq for Except

instance (sl : SectionedLine) : Decidable (coversExactly sl) :=
  inferInstanceAs (Decidable (_ ∧ _))

/-! ## Theorems -/

/-- Appending text adds the byte lengths. -/
theorem utf8Len_append (a b : List Char) : utf8Len (a ++ b) = utf8Len a + utf8Len b := by
  simp [utf8Len]

/-- C1: refuted on the code — the two arms of the `0.cmp(&rows)` match in
`Lines::scroll` are inverted relative to the scroll direction (and to the
diagrams in the function doc comment). For `delta_rows = 2` and region
`[2,5,0,10]` the code builds `Stride::Desc(5, (2 - 2 - 1) as usize)`; the stop
value underflows to `2 ^ 64 - 1`, the iterator yields nothing, and the grid is
returned completely unchanged (no row moved, no row marked dirty), while the
claim requires row 2 to receive the former row 4. -/
theorem c1_scroll_wrong_direction :
    Lines.scroll c1grid 2 5 0 10 2 = some c1grid ∧
    (c1grid.cells.drop 20).take 10 ≠ (c1grid.cells.drop 40).take 10 ∧
    c1grid.dirty_lines = ∅ := by
  refine ⟨?_, by decide, rfl⟩
  have h5 : ¬ (usizeOfI64 (-1) < 5) := by decide
  simp [Lines.scroll, descList, h5]

/-- C6: evaluation at the failing input — defining a highlight attribute for
id 5 (or even id 0) on a fresh table aborts: `HighlightGroups::update` calls
`resize_with(id, ..)`, which grows `groups` to length `id`, and the assignment
`groups[id] = ..` that follows is out of bounds. The claim says `define`
succeeds for every id. -/
theorem c6_define_growth_aborts :
    HighlightGroups.init.update [{ id := 5, rgb_attr := bgOnlyAttr }] = none ∧
    HighlightGroups.init.update [{ id := 0, rgb_attr := bgOnlyAttr }] = none ∧
    (∀ g : HighlightGroups, ∀ hl : HighlightAttr, g.groups.length ≤ hl.id →
      g.update [hl] = none) := by
  refine ⟨by decide, by decide, ?_⟩
  intro g hl h
  have hlen : (listResizeWith g.groups hl.id RgbAttr.default).length = hl.id := by
    unfold listResizeWith
    split
    · simp
      omega
    · simp
      omega
  simp [HighlightGroups.update, if_pos h, hlen]

/-- C4: refuted on the code at three inputs — `msg::read_string` aborts on a
fixstr declaring five bytes with one byte remaining (`&raw[..str_len]` out of
bounds), `decode_win_float_pos` hits `unreachable!` on the unknown anchor
string "XX", and the message loop hits `unreachable!` on the unknown message
kind 7, while the claim says every such violation is reported as a decode
error. -/
theorem c4_decoder_aborts :
    msgReadStringBytes [0xA5, 0x61] = Except.error DErr.panicked ∧
    decode_win_float_pos c4floatPosToks = Except.error DErr.panicked ∧
    handle_message [Tok.arr 3, Tok.uint 7] = Except.error DErr.panicked := by
  decide

/-- C10: confirmed — from the empty grid, `resize 5 2` then `resize 3 2` leaves
rows 0-4 dirty (the second `resize` dirties only the five rows that existed
before it and nothing ever prunes the set) while only three rows and three
cache entries exist, so the following `render` indexes `cached_sections` (and
the cell slice) at rows 3 and 4, past the end, and aborts. -/
theorem c10_render_out_of_bounds :
    (Lines.default.resize 5 2).bind (fun g => g.resize 3 2) = some c10g2 ∧
    4 ∈ c10g2.dirty_lines ∧ c10g2.rows = 3 ∧ c10g2.cached_sections.length = 3 ∧
    c10g2.render = none := by
  refine ⟨by decide, by decide, rfl, rfl, by decide⟩

/-- C9: refuted on the code — the default cell (and a cell updated from a
tuple with empty text) has `size = 0`, so `render_in` appends `chr[..0]`,
which is no character at all, not the single space the claim requires. -/
theorem c9_empty_cell_renders_no_space :
    (LineCell.default.render_in { text := [], sections := [] }).text ≠ [spaceChar] ∧
    ((LineCell.new { text := "", hl_id := 7, repeated := 1 }).render_in
        { text := [], sections := [] }).text ≠ [spaceChar] := by
  decide

/-- C9 amended: a cell whose grapheme is empty (`size = 0`) contributes nothing
at all to the rendered row: `render_in` returns the sectioned line unchanged. -/
theorem c9_empty_cell_contributes_nothing (c : LineCell) (s : SectionedLine)
    (h : c.size = 0) : c.render_in s = s := by
  cases s
  simp [LineCell.render_in, h]

/-- C9 witness: the default cell has an empty grapheme and contributes
nothing. -/
theorem c9_empty_cell_witness :
    LineCell.default.size = 0 ∧
    LineCell.default.render_in { text := [], sections := [] }
      = { text := [], sections := [] } :=
  ⟨rfl, c9_empty_cell_contributes_nothing LineCell.default { text := [], sections := [] } rfl⟩

/-- C2: refuted on the code — after `resize 1 2`, the `c2line` update and
`render`, the cached line of row 0 has text "ab" and an empty section list:
`lines::render` only pushes a section when the highlight changes, so the final
run of a line is never emitted and the sections do not cover the byte range of
the text. -/
theorem c2_sections_do_not_cover :
    ((Lines.default.resize 1 2).bind (fun g => g.update_line c2line)).bind Lines.render
      = some c2final ∧
    c2final.cached_sections.get? 0
      = some { text := [Char.ofNat 97, Char.ofNat 98], sections := [] } ∧
    ¬ coversExactly { text := [Char.ofNat 97, Char.ofNat 98], sections := [] } := by
  refine ⟨by decide, by decide, by decide⟩

/-- C5: refuted on the code — a read whose first batch carries the unknown
event name "an_unknown_event" makes `decode` return `err_invalid_input` for
the whole read; the following well-formed flush batch is never decoded. -/
theorem c5_unknown_event_name_is_fatal :
    decode c5toks = Except.error DErr.invalidInput := by
  decide

/-- One atomic step (a publish or a reader update) preserves the triple-buffer
slot-ownership invariant. -/
theorem tbStep_preserves_inv (s : TBState) (m : TBMove) (h : tbInv s = true) :
    tbInv (tbStep s m) = true := by
  obtain ⟨i, o, b⟩ := s
  simp only [tbInv, Bool.and_eq_true, decide_eq_true_eq, bne_iff_ne] at h
  obtain ⟨⟨⟨⟨⟨⟨hi, ho⟩, hb⟩, hm⟩, hio⟩, hib⟩, hob⟩ := h
  cases m <;>
    interval_cases i <;> interval_cases o <;> interval_cases b <;>
    first
      | decide
      | exact absurd hm (by decide)
      | exact absurd hio (by decide)
      | exact absurd hib (by decide)
      | exact absurd hob (by decide)

/-- Every state reachable by a finite interleaving satisfies the invariant. -/
theorem tbFoldl_inv : ∀ (ms : List TBMove) (s : TBState), tbInv s = true →
    tbInv (List.foldl tbStep s ms) = true
  | [], _, h => h
  | m :: ms, s, h => tbFoldl_inv ms (tbStep s m) (tbStep_preserves_inv s m h)

/-- C3: confirmed — from the initial state (writer slot 1, reader slot 2, back
slot 0, dirty bit clear), after any finite sequence of atomic `publish` and
reader `update` steps the writer input slot, the reader output slot and the
back slot of the shared descriptor are three pairwise distinct values of
`{0, 1, 2}`; in particular the slot the reader returns is never the slot the
writer is mutating. -/
theorem c3_triple_buffer_slots_disjoint (ms : List TBMove) :
    (tbRun ms).input_idx < 3 ∧ (tbRun ms).output_idx < 3 ∧
    (tbRun ms).back_info &&& BACK_INDEX_MASK < 3 ∧
    (tbRun ms).input_idx ≠ (tbRun ms).output_idx ∧
    (tbRun ms).input_idx ≠ (tbRun ms).back_info &&& BACK_INDEX_MASK ∧
    (tbRun ms).output_idx ≠ (tbRun ms).back_info &&& BACK_INDEX_MASK := by
  have h := tbFoldl_inv ms initialTB (by decide)
  rw [show List.foldl tbStep initialTB ms = tbRun ms from rfl] at h
  simp only [tbInv, Bool.and_eq_true, decide_eq_true_eq, bne_iff_ne] at h
  obtain ⟨⟨⟨⟨⟨⟨hi, ho⟩, _⟩, hm⟩, hio⟩, hib⟩, hob⟩ := h
  exact ⟨hi, ho, hm, hio, hib, hob⟩

/-- Appending a section to a chain: the end offset becomes its stop. -/
theorem sectionsEnd_append (secs : List Section) (sec : Section) :
    ∀ k, sectionsEnd k (secs ++ [sec]) = sec.stop := by
  induction secs with
  | nil => intro k; rfl
  | cons s ss ih => intro k; simpa [sectionsEnd] using ih s.stop

/-- Appending a section to a chain: the last highlight becomes its highlight. -/
theorem lastHlD_append (secs : List Section) (sec : Section) :
    ∀ ph, lastHlD ph (secs ++ [sec]) = some sec.hl := by
  induction secs with
  | nil => intro ph; rfl
  | cons s ss ih => intro ph; simpa [lastHlD] using ih (some s.hl)

/-- A section starting exactly at the chain end, non-empty and differing in
highlight from the last section, extends a valid chain. -/
theorem sectionsChainB_append (secs : List Section) (sec : Section) :
    ∀ k ph, sectionsChainB k ph secs = true →
    sec.start = sectionsEnd k secs →
    sec.start < sec.stop →
    (∀ h, lastHlD ph secs = some h → sec.hl ≠ h) →
    sectionsChainB k ph (secs ++ [sec]) = true := by
  induction secs with
  | nil =>
    intro k ph _ hstart hlt hne
    have hk : sec.start = k := hstart
    simp only [List.nil_append, sectionsChainB, Bool.and_eq_true, beq_iff_eq]
    refine ⟨⟨⟨hk, by simpa [hk] using hlt⟩, ?_⟩, trivial⟩
    cases ph with
    | none => rfl
    | some h => simpa [bne_iff_ne] using hne h rfl
  | cons s ss ih =>
    intro k ph hchain hstart hlt hne
    simp only [sectionsChainB, Bool.and_eq_true] at hchain
    obtain ⟨⟨⟨h1, h2⟩, h3⟩, h4⟩ := hchain
    simp only [List.cons_append, sectionsChainB, Bool.and_eq_true]
    exact ⟨⟨⟨h1, h2⟩, h3⟩, ih s.stop (some s.hl) h4 hstart hlt hne⟩

/-- The running invariant of the `lines::render` loop: the accumulated
sections form a valid chain from offset 0, the chain ends exactly at
`old_len`, `old_len` never exceeds the text byte length, and the current
highlight differs from the last section pushed. The loop keeps the chain valid
and its end below the text byte length. -/
theorem renderGo_inv : ∀ (cells : List LineCell) (hl old_len : Nat) (s : SectionedLine),
    sectionsChainB 0 none s.sections = true →
    sectionsEnd 0 s.sections = old_len →
    old_len ≤ utf8Len s.text →
    (∀ h, lastHlD none s.sections = some h → hl ≠ h) →
    sectionsChainB 0 none (renderGo cells hl old_len s).sections = true ∧
    sectionsEnd 0 (renderGo cells hl old_len s).sections
      ≤ utf8Len (renderGo cells hl old_len s).text := by
  intro cells
  induction cells with
  | nil =>
    intro hl old_len s hchain hend hle _
    exact ⟨hchain, hend ▸ hle⟩
  | cons c cells ih =>
    intro hl old_len s hchain hend hle hlast
    rw [renderGo]
    split
    · rename_i hcond
      obtain ⟨hhl, hlen⟩ := hcond
      apply ih
      · exact sectionsChainB_append s.sections _ 0 none hchain (by simpa using hend.symm)
          (by simpa using Nat.lt_of_le_of_ne hle (fun hx => hlen hx.symm)) hlast
      · simpa using sectionsEnd_append s.sections _ 0
      · simp [LineCell.render_in, utf8Len_append]
      · intro h hh
        rw [show (c.render_in { s with sections := s.sections ++
              [{ hl := hl, start := old_len, stop := utf8Len s.text }] }).sections
            = s.sections ++ [{ hl := hl, start := old_len, stop := utf8Len s.text }]
            from rfl, lastHlD_append] at hh
        cases hh
        exact hhl
    · apply ih
      · exact hchain
      · exact hend
      · calc old_len ≤ utf8Len s.text := hle
          _ ≤ utf8Len (c.render_in s).text := by simp [LineCell.render_in, utf8Len_append]
      · exact hlast

/-- C2 amended: the sections cached by `lines::render` for a (cleared) row form
a contiguous, non-overlapping, ordered chain starting at byte 0 in which
adjacent sections carry distinct highlight ids and every section is non-empty,
and which covers a prefix of the byte range of the text. The final run of
same-highlight cells is never pushed, so the chain in general stops short of
`text.len()` (exact coverage fails, see the counterexample). -/
theorem c2_render_sections_prefix (line : List LineCell) :
    sectionsChainB 0 none (linesRender line { text := [], sections := [] }).sections = true ∧
    sectionsEnd 0 (linesRender line { text := [], sections := [] }).sections
      ≤ utf8Len (linesRender line { text := [], sections := [] }).text := by
  cases line with
  | nil => exact ⟨rfl, Nat.le_refl 0⟩
  | cons fc cells =>
    have h := renderGo_inv cells fc.hl_id 0 (fc.render_in { text := [], sections := [] })
      rfl rfl (Nat.zero_le _) (fun h hh => Option.noConfusion hh)
    simpa [linesRender] using h

/-- C5 amended: an event-name string outside the recognized set makes
`decode_single` return `err_invalid_input` (after logging a warning) — a fatal
decode error for the whole read, not a skip: any enclosing `decode` loop with
that batch next propagates the same error and produces no further events. -/
theorem c5_unknown_event_error (name : String) (k : Nat) (rest : List Tok)
    (hname : name ∉ recognizedEventNames) :
    decode_single (Tok.arr (k + 1) :: Tok.str name :: rest)
      = Except.error DErr.invalidInput ∧
    ∀ m acc, decodeLoop (m + 1) acc (Tok.arr (k + 1) :: Tok.str name :: rest)
      = Except.error DErr.invalidInput := by
  have hsingle : decode_single (Tok.arr (k + 1) :: Tok.str name :: rest)
      = Except.error DErr.invalidInput := by
    show (match name with
      | "set_title" => (decode_set_title rest).map (fun p => ([p.1], p.2))
      | "set_icon" => (decode_set_icon rest).map (fun p => ([p.1], p.2))
      | "mode_info_set" => repeatDecode k decode_mode_info_set rest
      | "option_set" => repeatDecode k decode_option_set rest
      | "mode_change" => repeatDecode k decode_mode_change rest
      | "mouse_on" => do
        let raw ← ensure_parameters_count rest 0
        Except.ok ([RedrawEvent.Mouse true], raw)
      | "mouse_off" => do
        let raw ← ensure_parameters_count rest 0
        Except.ok ([RedrawEvent.Mouse false], raw)
      | "busy_start" => do
        let raw ← ensure_parameters_count rest 0
        Except.ok ([RedrawEvent.Busy true], raw)
      | "busy_stop" => do
        let raw ← ensure_parameters_count rest 0
        Except.ok ([RedrawEvent.Busy false], raw)
      | "flush" => do
        let raw ← ensure_parameters_count rest 0
        Except.ok ([RedrawEvent.Flush], raw)
      | "suspend" | "update_menu" | "bell" | "visual_bell" => do
        let raw ← ensure_parameters_count rest 0
        Except.ok ([], raw)
      | "grid_resize" => repeatDecode k decode_grid_resize rest
      | "default_colors_set" => repeatDecode k decode_default_colors_set rest
      | "hl_attr_define" => repeatDecode k decode_hl_attr_define rest
      | "hl_group_set" => repeatDecode k decode_hl_group_set rest
      | "grid_line" => repeatDecode k decode_grid_line rest
      | "grid_clear" => repeatDecode k decode_grid_clear rest
      | "grid_destroy" => repeatDecode k decode_grid_destroy rest
      | "grid_cursor_goto" => (decode_grid_cursor_goto rest).map (fun p => ([p.1], p.2))
      | "grid_scroll" => repeatDecode k decode_grid_scroll rest
      | "win_pos" => repeatDecode k decode_win_pos rest
      | "win_float_pos" => repeatDecode k decode_win_float_pos rest
      | "win_external_pos" => repeatDecode k decode_win_external_pos rest
      | "win_hide" => repeatDecode k decode_win_hide rest
      | "win_close" => repeatDecode k decode_win_close rest
      | "msg_set_pos" => repeatDecode k decode_msg_set_pos rest
      | "win_viewport" => repeatDecode k decode_win_viewport rest
      | _ => Except.error DErr.invalidInput) = Except.error DErr.invalidInput
    split
    all_goals try rfl
    all_goals simp_all [recognizedEventNames]
  refine ⟨hsingle, ?_⟩
  intro m acc
  simp [decodeLoop, hsingle]
  rfl
  -- the bind of the error with the loop continuation is the error itself

/-- C5 witness: decoding a batch headed by the concrete unknown event name
"an_unknown_event" returns the decode error. -/
theorem c5_unknown_event_error_witness :
    decode_single [Tok.arr 1, Tok.str "an_unknown_event"] = Except.error DErr.invalidInput ∧
    decodeLoop 1 [] [Tok.arr 1, Tok.str "an_unknown_event"]
      = Except.error DErr.invalidInput := by
  have h := c5_unknown_event_error "an_unknown_event" 0 []
    (by simp [recognizedEventNames])
  exact ⟨h.1, h.2 0 []⟩

/-- C7: confirmed — `group_color_set` returns the stored attribute with every
absent channel filled from the default in force at lookup time (so a changed
default changes the resolution of an already stored id with no new `define`),
swaps foreground and background after filling when the reverse flag is set
(`reverse_rgb_attr` is modelled from the spec, its definition being absent
from src/), and yields the default attribute for any id at or past the array
end. -/
theorem c7_group_color_set_resolution (groups : List RgbAttr) (d d2 : RgbAttr) (id : Nat) :
    (groups.length ≤ id → HighlightGroups.group_color_set ⟨groups, d⟩ id = d) ∧
    (∀ hl0, groups.get? id = some hl0 →
      (hl0.reverse = false →
        (HighlightGroups.group_color_set ⟨groups, d⟩ id).foreground
          = hl0.foreground.or d.foreground ∧
        (HighlightGroups.group_color_set ⟨groups, d⟩ id).background
          = hl0.background.or d.background ∧
        (HighlightGroups.group_color_set ⟨groups, d⟩ id).special
          = hl0.special.or d.special ∧
        (HighlightGroups.group_color_set ⟨groups, d2⟩ id).foreground
          = hl0.foreground.or d2.foreground ∧
        (HighlightGroups.group_color_set ⟨groups, d2⟩ id).background
          = hl0.background.or d2.background ∧
        (HighlightGroups.group_color_set ⟨groups, d2⟩ id).special
          = hl0.special.or d2.special) ∧
      (hl0.reverse = true →
        (HighlightGroups.group_color_set ⟨groups, d⟩ id).foreground
          = hl0.background.or d.background ∧
        (HighlightGroups.group_color_set ⟨groups, d⟩ id).background
          = hl0.foreground.or d.foreground ∧
        (HighlightGroups.group_color_set ⟨groups, d⟩ id).special
          = hl0.special.or d.special)) := by
  constructor
  · intro hlen
    have hnone : groups[id]? = none := by
      simpa [List.get?_eq_getElem?] using List.get?_eq_none.mpr hlen
    simp [HighlightGroups.group_color_set, hnone]
  · intro hl0 hsome
    have hsome2 : groups[id]? = some hl0 := by
      simpa [List.get?_eq_getElem?] using hsome
    constructor
    · intro hrev
      simp only [RgbAttr.reverse] at hrev
      simp [HighlightGroups.group_color_set, hsome2, RgbAttr.reverse_rgb_attr,
        RgbAttr.reverse, hrev]
    · intro hrev
      simp only [RgbAttr.reverse] at hrev
      simp [HighlightGroups.group_color_set, hsome2, RgbAttr.reverse_rgb_attr,
        RgbAttr.reverse, hrev]

/-- C7 witness: with entry 5 defined holding only a background, resolution of
id 5 takes foreground and special from whichever default is current, and an
out-of-range id resolves to the whole default. -/
theorem c7_group_color_set_witness :
    (HighlightGroups.group_color_set ⟨c7groups, c7dA⟩ 5).foreground = c7dA.foreground ∧
    (HighlightGroups.group_color_set ⟨c7groups, c7dA⟩ 5).special = c7dA.special ∧
    (HighlightGroups.group_color_set ⟨c7groups, c7dA⟩ 5).background = bgOnlyAttr.background ∧
    (HighlightGroups.group_color_set ⟨c7groups, c7dB⟩ 5).foreground = c7dB.foreground ∧
    (HighlightGroups.group_color_set ⟨c7groups, c7dB⟩ 5).special = c7dB.special ∧
    HighlightGroups.group_color_set ⟨c7groups, c7dA⟩ 9 = c7dA := by
  have h5 := ((c7_group_color_set_resolution c7groups c7dA c7dB 5).2 bgOnlyAttr
    (by decide)).1 (by decide)
  have h9 := (c7_group_color_set_resolution c7groups c7dA c7dB 9).1 (by decide)
  obtain ⟨f1, b1, s1, f2, b2, s2⟩ := h5
  refine ⟨?_, ?_, ?_, ?_, ?_, h9⟩ <;> simp_all [bgOnlyAttr]

/-- The cell loop of `decode_grid_line` decodes an encoded tuple list exactly
as the carry-forward reference: omitted highlight ids take the most recently
seen explicit id, omitted repeat counts take 1. -/
theorem decodeGridLineCells_spec (ws : List CellWire) :
    ∀ (last : Nat) (acc : List GridCell) (rest : List Tok),
    decodeGridLineCells ws.length last acc (encodeCells ws ++ rest)
      = Except.ok (acc ++ gridLineCellsSpec last ws, rest) := by
  induction ws with
  | nil =>
    intro last acc rest
    simp [encodeCells, decodeGridLineCells, gridLineCellsSpec]
  | cons w ws ih =>
    intro last acc rest
    have henc : encodeCells (w :: ws) = w.toks ++ encodeCells ws := by
      simp [encodeCells]
    cases w with
    | t1 t =>
      show decodeGridLineCells (ws.length + 1) last acc
        (encodeCells (CellWire.t1 t :: ws) ++ rest) = _
      rw [henc]
      show decodeGridLineCells ws.length last
        (acc ++ [{ text := t, hl_id := last, repeated := 1 }]) (encodeCells ws ++ rest) = _
      rw [show (gridLineCellsSpec last (CellWire.t1 t :: ws) : List GridCell)
          = { text := t, hl_id := last, repeated := 1 } :: gridLineCellsSpec last ws from rfl,
        show acc ++ { text := t, hl_id := last, repeated := 1 } :: gridLineCellsSpec last ws
          = (acc ++ [{ text := t, hl_id := last, repeated := 1 }]) ++ gridLineCellsSpec last ws by simp]
      exact ih last (acc ++ [{ text := t, hl_id := last, repeated := 1 }]) rest
    | t2 t h =>
      show decodeGridLineCells (ws.length + 1) last acc
        (encodeCells (CellWire.t2 t h :: ws) ++ rest) = _
      rw [henc]
      show decodeGridLineCells ws.length h
        (acc ++ [{ text := t, hl_id := h, repeated := 1 }]) (encodeCells ws ++ rest) = _
      rw [show (gridLineCellsSpec last (CellWire.t2 t h :: ws) : List GridCell)
          = { text := t, hl_id := h, repeated := 1 } :: gridLineCellsSpec h ws from rfl,
        show acc ++ { text := t, hl_id := h, repeated := 1 } :: gridLineCellsSpec h ws
          = (acc ++ [{ text := t, hl_id := h, repeated := 1 }]) ++ gridLineCellsSpec h ws by simp]
      exact ih h (acc ++ [{ text := t, hl_id := h, repeated := 1 }]) rest
    | t3 t h r =>
      show decodeGridLineCells (ws.length + 1) last acc
        (encodeCells (CellWire.t3 t h r :: ws) ++ rest) = _
      rw [henc]
      show decodeGridLineCells ws.length h
        (acc ++ [{ text := t, hl_id := h, repeated := r }]) (encodeCells ws ++ rest) = _
      rw [show (gridLineCellsSpec last (CellWire.t3 t h r :: ws) : List GridCell)
          = { text := t, hl_id := h, repeated := r } :: gridLineCellsSpec h ws from rfl,
        show acc ++ { text := t, hl_id := h, repeated := r } :: gridLineCellsSpec h ws
          = (acc ++ [{ text := t, hl_id := h, repeated := r }]) ++ gridLineCellsSpec h ws by simp]
      exact ih h (acc ++ [{ text := t, hl_id := h, repeated := r }]) rest

/-- C8: confirmed — decoding a well-formed grid_line payload gives every cell
tuple that omits its highlight id the most recently seen explicit id of the
same line (the decoder starts from 0, and a well-formed stream specifies the
id on the first tuple) and every tuple that omits its repeat count the count 1;
with only the first tuple carrying an id, every decoded cell shares it. -/
theorem c8_grid_line_carry_forward (grid row col_start : Nat) (ws : List CellWire)
    (rest : List Tok) :
    decode_grid_line (Tok.arr 4 :: Tok.uint grid :: Tok.uint row :: Tok.uint col_start ::
        Tok.arr ws.length :: (encodeCells ws ++ rest))
      = Except.ok (RedrawEvent.GridLine
          { grid := grid, row := row, col_start := col_start,
            cells := gridLineCellsSpec 0 ws }, rest) := by
  show (do
    let (cells, raw) ← decodeGridLineCells ws.length 0 [] (encodeCells ws ++ rest)
    Except.ok (RedrawEvent.GridLine
      { grid := grid, row := row, col_start := col_start, cells := cells }, raw))
    = (Except.ok (RedrawEvent.GridLine
        { grid := grid, row := row, col_start := col_start,
          cells := gridLineCellsSpec 0 ws }, rest)
       : Except DErr (RedrawEvent × List Tok))
  rw [decodeGridLineCells_spec ws 0 [] rest]
  rfl

end Weovim
